import Mathlib

/-!
Verification development for the minichain repository.

Shallow embedding conventions:
* `u64` values are modelled as `Nat`; operations that Rust performs with
  `saturating_add` / `saturating_mul` are modelled with explicit saturation at
  `2^64 - 1`, checked `u64` subtraction/multiplication is modelled with an
  explicit bound test (a failed test models the Rust debug-build panic).
* 20-byte addresses and 32-byte Blake3 hashes are modelled as `Nat` keys; the
  hash functions themselves are opaque parameters (`HashModel`), since every
  claim treated here is independent of the concrete digest values.
* The sled key-value store is modelled as association lists, one per keyspace
  (`account:` and `code:`), with overwrite-in-place insertion.
* Fallible Rust functions return `Except`/`Option`; a Rust `panic!`/`expect`/
  arithmetic-overflow abort is a distinguished error value, never an `Ok`.
-/

namespace Minichain

/-! ## u64 arithmetic model -/

def U64LIMIT : Nat := 2 ^ 64

def U64MAX : Nat := U64LIMIT - 1

/-- Rust `u64::saturating_add`. -/
def satAdd (a b : Nat) : Nat := min (a + b) U64MAX

/-- Rust `u64::saturating_mul`. -/
def satMul (a b : Nat) : Nat := min (a * b) U64MAX

/-! ## Association-list model of the prefixed key-value store -/

def alistLookup {β : Type} (m : List (Nat × β)) (k : Nat) : Option β :=
  (m.find? (fun p => p.1 == k)).map Prod.snd

def alistInsert {β : Type} : List (Nat × β) → Nat → β → List (Nat × β)
  | [], k, v => [(k, v)]
  | (k', v') :: rest, k, v =>
    if k' == k then (k, v) :: rest else (k', v') :: alistInsert rest k v

/-! ## Account (crates/core/src/account.rs) -/

structure Account where
  nonce : Nat
  balance : Nat
  code_hash : Option Nat
  storage_root : Nat
deriving DecidableEq, Repr

/-- `Account::new_user(balance)`. -/
def Account.new_user (balance : Nat) : Account :=
  { nonce := 0, balance := balance, code_hash := none, storage_root := 0 }

/-- `impl Default for Account` delegates to `new_user(0)`. -/
def Account.deflt : Account := Account.new_user 0

/-- `Account::is_contract`. -/
def Account.is_contract (a : Account) : Bool := a.code_hash.isSome

/-! ## Transaction (crates/core/src/transaction.rs)

The `signature` field is omitted: none of the executor/state operations
modelled here read it (it only feeds the opaque full-transaction hash, which
is part of the opaque `HashModel`). `from` is a Lean keyword, hence `from'`. -/

structure Tx where
  nonce : Nat
  from' : Nat
  to' : Option Nat
  value : Nat
  data : List Nat
  gas_limit : Nat
  gas_price : Nat
deriving DecidableEq, Repr

/-- `Transaction::is_deploy`. -/
def Tx.is_deploy (tx : Tx) : Bool := tx.to'.isNone

/-- `Transaction::is_transfer`. -/
def Tx.is_transfer (tx : Tx) : Bool := tx.to'.isSome && tx.data.isEmpty

/-- `Transaction::is_call`. -/
def Tx.is_call (tx : Tx) : Bool := tx.to'.isSome && !tx.data.isEmpty

/-- `Transaction::max_cost`: `value.saturating_add(gas_limit.saturating_mul(gas_price))`. -/
def Tx.max_cost (tx : Tx) : Nat := satAdd tx.value (satMul tx.gas_limit tx.gas_price)

/-- Opaque model of the Blake3-derived identifiers used by the executor:
the full transaction hash, `hash(bytes)` on byte vectors, and the
contract-address derivation `first20(hash(from || nonce_le))` as a function
of sender and nonce. -/
structure HashModel where
  txHash : Tx → Nat
  hashBytes : List Nat → Nat
  contractAddrOf : Nat → Nat → Nat

/-- `Transaction::contract_address`. -/
def Tx.contract_address (hm : HashModel) (tx : Tx) : Option Nat :=
  if tx.is_deploy then some (hm.contractAddrOf tx.from' tx.nonce) else none

/-! ## State manager (crates/storage/src/state.rs)

`ChainState` carries the two keyspaces the executor claims touch:
`account:<addr>` and `code:<hash>`. -/

structure ChainState where
  accounts : List (Nat × Account)
  code : List (Nat × List Nat)
deriving DecidableEq, Repr

/-- `StateManager::get_account`: default (zero) account when absent, no write. -/
def get_account (st : ChainState) (a : Nat) : Account :=
  (alistLookup st.accounts a).getD Account.deflt

/-- `StateManager::put_account`. -/
def put_account (st : ChainState) (a : Nat) (acct : Account) : ChainState :=
  { st with accounts := alistInsert st.accounts a acct }

/-- `StateManager::get_balance`. -/
def get_balance (st : ChainState) (a : Nat) : Nat := (get_account st a).balance

/-- `StateManager::get_nonce`. -/
def get_nonce (st : ChainState) (a : Nat) : Nat := (get_account st a).nonce

/-- `StateManager::add_balance` (`saturating_add`). -/
def add_balance (st : ChainState) (a : Nat) (amount : Nat) : ChainState :=
  let acct := get_account st a
  put_account st a { acct with balance := satAdd acct.balance amount }

/-- `StateManager::sub_balance`; `none` models `StorageError::InsufficientBalance`. -/
def sub_balance (st : ChainState) (a : Nat) (amount : Nat) : Option ChainState :=
  let acct := get_account st a
  if acct.balance < amount then none
  else some (put_account st a { acct with balance := acct.balance - amount })

/-- `StateManager::transfer`: debit first, then credit. -/
def transfer (st : ChainState) (f t : Nat) (amount : Nat) : Option ChainState :=
  (sub_balance st f amount).map (fun st' => add_balance st' t amount)

/-- `StateManager::increment_nonce`: returns the old nonce (`saturating_add` on the new one). -/
def increment_nonce (st : ChainState) (a : Nat) : Nat × ChainState :=
  let acct := get_account st a
  (acct.nonce, put_account st a { acct with nonce := satAdd acct.nonce 1 })

/-- `StateManager::put_code` (never called by the executor). -/
def put_code (st : ChainState) (h : Nat) (code : List Nat) : ChainState :=
  { st with code := alistInsert st.code h code }

/-- `StateManager::get_code`. -/
def get_code (st : ChainState) (h : Nat) : Option (List Nat) :=
  alistLookup st.code h

/-! ## Executor (crates/chain/src/executor.rs) -/

/-- The error payloads the executor formats into receipt `error` strings. -/
inductive RErr where
  | invalidNonce (expected got : Nat)
  | insufficientBalance (required available : Nat)
  | contractNotFound
deriving DecidableEq, Repr

/-- `TransactionReceipt`. -/
structure Receipt where
  tx_hash : Nat
  success : Bool
  gas_used : Nat
  contract_address : Option Nat
  error : Option RErr
deriving DecidableEq, Repr

/-- Fatal outcomes of `execute_transaction`: a propagated `StorageError`, or a
Rust debug-build abort (`assert_eq!` failure, u64 overflow in `gas_used *
gas_price`, or u64 underflow in `max_cost - gas_cost`). -/
inductive ExecErr where
  | storageErr
  | rustPanic
deriving DecidableEq, Repr

/-- Dispatch result tuple `(success, gas_used, contract_address, error)` plus
the updated state (the Rust code mutates state in place). -/
abbrev DispatchOut := Bool × Nat × Option Nat × Option RErr × ChainState

/-- `Executor::execute_transfer`. -/
def execute_transfer (st : ChainState) (tx : Tx) : Except ExecErr DispatchOut :=
  match tx.to' with
  | none => .error .rustPanic
  | some t =>
    if tx.value > 0 then
      match transfer st tx.from' t tx.value with
      | none => .error .storageErr
      | some st' => .ok (true, 21000, none, none, st')
    else .ok (true, 21000, none, none, st)

/-- `Executor::execute_deploy`.  Note: the bytecode itself is never stored
(`put_code` is not called); only the contract account is written.
`32_000 + len * 200` is u64 arithmetic in Rust; the bound test under which
our claims are settled keeps it below `2^64`. -/
def execute_deploy (hm : HashModel) (st : ChainState) (tx : Tx) : Except ExecErr DispatchOut :=
  match tx.contract_address hm with
  | none => .error .rustPanic
  | some caddr =>
    let code_hash := hm.hashBytes tx.data
    let contract_account : Account :=
      { balance := tx.value, nonce := 0, code_hash := some code_hash, storage_root := 0 }
    let st' := put_account st caddr contract_account
    let gas_used := 32000 + tx.data.length * 200
    .ok (true, gas_used, some caddr, none, st')

/-- `Executor::execute_call`. -/
def execute_call (st : ChainState) (tx : Tx) : Except ExecErr DispatchOut :=
  match tx.to' with
  | none => .error .rustPanic
  | some caddr =>
    let contract := get_account st caddr
    if !contract.is_contract then
      .ok (false, 21000, none, some .contractNotFound, st)
    else
      let gas_used := 21000 + tx.data.length * 68
      if tx.value > 0 then
        match transfer st tx.from' caddr tx.value with
        | none => .error .storageErr
        | some st' => .ok (true, gas_used, none, none, st')
      else .ok (true, gas_used, none, none, st)

/-- `Executor::execute_transaction`. -/
def execute_transaction (hm : HashModel) (st : ChainState) (tx : Tx) :
    Except ExecErr (Receipt × ChainState) :=
  let tx_hash := hm.txHash tx
  let sender := tx.from'
  let sender_account := get_account st sender
  if tx.nonce ≠ sender_account.nonce then
    .ok ({ tx_hash := tx_hash, success := false, gas_used := 0, contract_address := none,
           error := some (.invalidNonce sender_account.nonce tx.nonce) }, st)
  else
    let max_cost := tx.max_cost
    if sender_account.balance < max_cost then
      .ok ({ tx_hash := tx_hash, success := false, gas_used := 0, contract_address := none,
             error := some (.insufficientBalance max_cost sender_account.balance) }, st)
    else
      let old_nonce := (increment_nonce st sender).1
      let st1 := (increment_nonce st sender).2
      if old_nonce ≠ tx.nonce then .error .rustPanic
      else
        match sub_balance st1 sender max_cost with
        | none => .error .storageErr
        | some st2 =>
          let dispatched :=
            if tx.is_deploy then execute_deploy hm st2 tx
            else if tx.is_call then execute_call st2 tx
            else execute_transfer st2 tx
          match dispatched with
          | .error e => .error e
          | .ok (success, gas_used, caddr, err, st3) =>
            if gas_used * tx.gas_price ≥ U64LIMIT then .error .rustPanic
            else
              let gas_cost := gas_used * tx.gas_price
              if max_cost < gas_cost then .error .rustPanic
              else
                let refund := max_cost - gas_cost
                let st4 := if refund > 0 then add_balance st3 sender refund else st3
                .ok ({ tx_hash := tx_hash, success := success, gas_used := gas_used,
                       contract_address := caddr, error := err }, st4)

/-! ## VM (crates/vm) -/

/-- `VmError` (crates/vm/src/executor.rs). -/
inductive VmError where
  | OutOfGas (required remaining : Nat)
  | InvalidOpcode (b : Nat)
  | DivisionByZero
  | MemoryOverflow
  | InvalidJump (addr : Nat)
  | StackUnderflow
  | Reverted
deriving DecidableEq, Repr

/-- `Opcode` (crates/vm/src/opcodes.rs). -/
inductive Opcode where
  | HALT | NOP | JUMP | JUMPI | CALL | RET | REVERT
  | ADD | SUB | MUL | DIV | MOD | ADDI
  | AND | OR | XOR | NOT | SHL | SHR
  | EQ | NE | LT | GT | LE | GE | ISZERO
  | LOAD8 | LOAD64 | STORE8 | STORE64 | MSIZE | MCOPY
  | SLOAD | SSTORE
  | LOADI | MOV
  | CALLER | CALLVALUE | ADDRESS | BLOCKNUMBER | TIMESTAMP | GAS
  | LOG
deriving DecidableEq, Repr

/-- `Opcode::from_byte`. -/
def Opcode.from_byte (b : Nat) : Option Opcode :=
  match b with
  | 0x00 => some .HALT
  | 0x01 => some .NOP
  | 0x02 => some .JUMP
  | 0x03 => some .JUMPI
  | 0x04 => some .CALL
  | 0x05 => some .RET
  | 0x0F => some .REVERT
  | 0x10 => some .ADD
  | 0x11 => some .SUB
  | 0x12 => some .MUL
  | 0x13 => some .DIV
  | 0x14 => some .MOD
  | 0x15 => some .ADDI
  | 0x20 => some .AND
  | 0x21 => some .OR
  | 0x22 => some .XOR
  | 0x23 => some .NOT
  | 0x24 => some .SHL
  | 0x25 => some .SHR
  | 0x30 => some .EQ
  | 0x31 => some .NE
  | 0x32 => some .LT
  | 0x33 => some .GT
  | 0x34 => some .LE
  | 0x35 => some .GE
  | 0x36 => some .ISZERO
  | 0x40 => some .LOAD8
  | 0x41 => some .LOAD64
  | 0x42 => some .STORE8
  | 0x43 => some .STORE64
  | 0x44 => some .MSIZE
  | 0x45 => some .MCOPY
  | 0x50 => some .SLOAD
  | 0x51 => some .SSTORE
  | 0x70 => some .LOADI
  | 0x71 => some .MOV
  | 0x80 => some .CALLER
  | 0x81 => some .CALLVALUE
  | 0x82 => some .ADDRESS
  | 0x83 => some .BLOCKNUMBER
  | 0x84 => some .TIMESTAMP
  | 0x85 => some .GAS
  | 0xF0 => some .LOG
  | _ => none

/-- `Opcode::instruction_size` — note the wildcard fallback `_ => 2`, which is
what ADDI (and CALL, REVERT) actually hit in the source. -/
def Opcode.instruction_size (o : Opcode) : Nat :=
  match o with
  | .HALT | .NOP | .RET => 1
  | .JUMP | .NOT | .LOG | .MSIZE | .CALLER | .CALLVALUE | .ADDRESS
  | .BLOCKNUMBER | .TIMESTAMP | .GAS => 2
  | .MOV | .LOAD8 | .STORE8 | .LOAD64 | .STORE64 | .SLOAD | .SSTORE | .ISZERO => 2
  | .ADD | .SUB | .MUL | .DIV | .MOD | .AND | .OR | .XOR | .SHL | .SHR
  | .EQ | .NE | .LT | .GT | .LE | .GE | .MCOPY | .JUMPI => 3
  | .LOADI => 10
  | _ => 2

/-! `GasCosts` (crates/vm/src/gas.rs). -/

namespace GasCosts

def ZERO : Nat := 0
def BASE : Nat := 2
def LOW : Nat := 3
def MID : Nat := 5
def MEMORY_READ : Nat := 3
def MEMORY_WRITE : Nat := 3
def SLOAD : Nat := 100
def SSTORE_SET : Nat := 20000
def SSTORE_RESET : Nat := 5000
def JUMP : Nat := 8
def CALL : Nat := 700

end GasCosts

/-- `GasMeter` (crates/vm/src/gas.rs). -/
structure GasMeter where
  remaining : Nat
  used : Nat
deriving DecidableEq, Repr

/-- `GasMeter::new(limit)`. -/
def GasMeter.new (limit : Nat) : GasMeter := { remaining := limit, used := 0 }

/-- `GasMeter::consume`: fails (without mutating) when `remaining < amount`. -/
def GasMeter.consume (g : GasMeter) (amount : Nat) : Except VmError GasMeter :=
  if g.remaining < amount then .error (.OutOfGas amount g.remaining)
  else .ok { remaining := g.remaining - amount, used := g.used + amount }

/-! ### Memory (crates/vm/src/memory.rs) -/

/-- Little-endian byte-list decoding (`u64::from_le_bytes` et al.). -/
def fromLeBytes (l : List Nat) : Nat := l.foldr (fun b acc => b + 256 * acc) 0

/-- `u64::to_le_bytes`. -/
def u64ToLeBytes (v : Nat) : List Nat :=
  [v % 256, v / 256 % 256, v / 256 ^ 2 % 256, v / 256 ^ 3 % 256,
   v / 256 ^ 4 % 256, v / 256 ^ 5 % 256, v / 256 ^ 6 % 256, v / 256 ^ 7 % 256]

/-- `Vec::resize(n, 0)` — only ever used to grow here. -/
def listExtend (l : List Nat) (n : Nat) : List Nat :=
  l ++ List.replicate (n - l.length) 0

structure Mem where
  data : List Nat
  max_size : Nat
deriving DecidableEq, Repr

def Mem.new (max_size : Nat) : Mem := { data := [], max_size := max_size }

/-- `Memory::load8`: reads past the end return zero. -/
def Mem.load8 (m : Mem) (off : Nat) : Nat := m.data.getD off 0

/-- `Memory::load64`. -/
def Mem.load64 (m : Mem) (off : Nat) : Nat :=
  if off + 8 > m.data.length then 0
  else fromLeBytes ((m.data.drop off).take 8)

/-- `Memory::store8`. -/
def Mem.store8 (m : Mem) (off v : Nat) : Except VmError Mem :=
  if off ≥ m.max_size then .error .MemoryOverflow
  else
    let d := if off ≥ m.data.length then listExtend m.data (off + 1) else m.data
    .ok { m with data := d.set off v }

/-- `Memory::store64`. -/
def Mem.store64 (m : Mem) (off v : Nat) : Except VmError Mem :=
  if off + 8 > m.max_size then .error .MemoryOverflow
  else
    let d := if off + 8 > m.data.length then listExtend m.data (off + 8) else m.data
    .ok { m with data := d.take off ++ u64ToLeBytes v ++ d.drop (off + 8) }

/-- `Memory::mcopy`. -/
def Mem.mcopy (m : Mem) (dest src len : Nat) : Except VmError Mem :=
  if dest + len > m.max_size ∨ src + len > m.data.length then .error .MemoryOverflow
  else
    let d := if dest ≥ m.data.length then listExtend m.data dest else m.data
    let d := if dest + len > d.length then listExtend d (dest + len) else d
    let src_data := (d.drop src).take len
    .ok { m with data := d.take dest ++ src_data ++ d.drop (dest + len) }

def Mem.size (m : Mem) : Nat := m.data.length

/-! ### Registers (crates/vm/src/memory.rs) -/

def NUM_REGISTERS : Nat := 16

/-- `Registers::get` (index reduced `mod 16` as in the source). -/
def regGet (regs : List Nat) (r : Nat) : Nat := regs.getD (r % NUM_REGISTERS) 0

/-- `Registers::set`. -/
def regSet (regs : List Nat) (r v : Nat) : List Nat := regs.set (r % NUM_REGISTERS) v

/-! ### VM state and dispatch (crates/vm/src/executor.rs) -/

/-- Wrapping u64 arithmetic. -/
def wrap64 (n : Nat) : Nat := n % U64LIMIT

def wsub64 (a b : Nat) : Nat := (a + U64LIMIT - b % U64LIMIT) % U64LIMIT

def not64 (x : Nat) : Nat := U64MAX - x % U64LIMIT

/-- The VM state.  `caller`/`address` hold the u64 the `CALLER`/`ADDRESS`
opcodes write (the low 8 address bytes, little-endian — the truncation
happens at VM construction and is outside these claims).  The storage
backend holds u64-keyed u64 slots: the source zero-pads the 8-byte register
value into a 32-byte big-endian key/value, a bijection on what this VM can
ever read or write. -/
structure Vm where
  registers : List Nat
  memory : Mem
  pc : Nat
  gas : GasMeter
  bytecode : List Nat
  halted : Bool
  caller : Nat
  address : Nat
  call_value : Nat
  block_number : Nat
  timestamp : Nat
  storage : Option (List (Nat × Nat))
  logs : List Nat
deriving DecidableEq, Repr

/-- `Vm::new`. -/
def Vm.new (bytecode : List Nat) (gas_limit caller address call_value : Nat) : Vm :=
  { registers := List.replicate 16 0
    memory := Mem.new (1024 * 1024)
    pc := 0
    gas := GasMeter.new gas_limit
    bytecode := bytecode
    halted := false
    caller := caller
    address := address
    call_value := call_value
    block_number := 0
    timestamp := 0
    storage := none
    logs := [] }

/-- How a single `Vm::step` can stop: a returned `VmError`, or a Rust
index/slice out-of-bounds panic while decoding operands (`bytecode[i]` with
`i ≥ len`). -/
inductive StepErr where
  | vmErr (e : VmError)
  | oobIndex (i : Nat)
deriving DecidableEq, Repr

/-- A single byte fetch `self.bytecode[i]`, with the panic made explicit. -/
def decodeByte (vm : Vm) (i : Nat) : Except StepErr Nat :=
  match vm.bytecode[i]? with
  | some b => .ok b
  | none => .error (.oobIndex i)

/-- `Vm::decode_r`. -/
def decode_r (vm : Vm) : Except StepErr Nat :=
  (decodeByte vm (vm.pc + 1)).map (fun b => b / 16 % 16)

/-- `Vm::decode_rr`. -/
def decode_rr (vm : Vm) : Except StepErr (Nat × Nat) :=
  (decodeByte vm (vm.pc + 1)).map (fun b => (b / 16 % 16, b % 16))

/-- `Vm::decode_rrr`. -/
def decode_rrr (vm : Vm) : Except StepErr (Nat × Nat × Nat) := do
  let b1 ← decodeByte vm (vm.pc + 1)
  let b2 ← decodeByte vm (vm.pc + 2)
  pure (b1 / 16 % 16, b1 % 16, b2 / 16 % 16)

/-- `Vm::decode_imm64`: slices `bytecode[pc+2 .. pc+10]` (slice panic explicit). -/
def decode_imm64 (vm : Vm) : Except StepErr Nat :=
  if vm.pc + 2 + 8 > vm.bytecode.length then .error (.oobIndex (vm.pc + 2 + 8))
  else .ok (fromLeBytes ((vm.bytecode.drop (vm.pc + 2)).take 8))

/-- `Vm::decode_imm32`: slices `bytecode[pc+2 .. pc+6]`. -/
def decode_imm32 (vm : Vm) : Except StepErr Nat :=
  if vm.pc + 2 + 4 > vm.bytecode.length then .error (.oobIndex (vm.pc + 2 + 4))
  else .ok (fromLeBytes ((vm.bytecode.drop (vm.pc + 2)).take 4))

/-- Charge gas, then continue with the gas-debited VM.  A failed `consume`
returns early with the VM unchanged, exactly as in the source. -/
def chargeThen (vm : Vm) (cost : Nat) (k : Vm → Vm × Option StepErr) : Vm × Option StepErr :=
  match vm.gas.consume cost with
  | .error e => (vm, some (.vmErr e))
  | .ok g => k { vm with gas := g }

/-- Continue with a decoded value, or stop (the VM keeps mutations made so far). -/
def orFail {α : Type} (vm : Vm) (x : Except StepErr α) (k : α → Vm × Option StepErr) :
    Vm × Option StepErr :=
  match x with
  | .error e => (vm, some e)
  | .ok a => k a

/-- `Vm::step`.  On an error outcome the returned VM carries every mutation
made before the error point (gas charges, and for REVERT the halt flag),
matching the in-place mutation of the source. -/
def Vm.step (vm : Vm) : Vm × Option StepErr :=
  match vm.bytecode[vm.pc]? with
  | none => (vm, some (.oobIndex vm.pc))
  | some opcode_byte =>
    match Opcode.from_byte opcode_byte with
    | none => (vm, some (.vmErr (.InvalidOpcode opcode_byte)))
    | some op =>
      match op with
      | .HALT => chargeThen vm GasCosts.ZERO fun vm =>
          ({ vm with halted := true }, none)
      | .NOP => chargeThen vm GasCosts.ZERO fun vm =>
          ({ vm with pc := vm.pc + 1 }, none)
      | .ADD => chargeThen vm GasCosts.BASE fun vm =>
          orFail vm (decode_rrr vm) fun (dst, s1, s2) =>
            ({ vm with registers := regSet vm.registers dst
                         (wrap64 (regGet vm.registers s1 + regGet vm.registers s2))
                       pc := vm.pc + 3 }, none)
      | .SUB => chargeThen vm GasCosts.BASE fun vm =>
          orFail vm (decode_rrr vm) fun (dst, s1, s2) =>
            ({ vm with registers := regSet vm.registers dst
                         (wsub64 (regGet vm.registers s1) (regGet vm.registers s2))
                       pc := vm.pc + 3 }, none)
      | .MUL => chargeThen vm GasCosts.LOW fun vm =>
          orFail vm (decode_rrr vm) fun (dst, s1, s2) =>
            ({ vm with registers := regSet vm.registers dst
                         (wrap64 (regGet vm.registers s1 * regGet vm.registers s2))
                       pc := vm.pc + 3 }, none)
      | .DIV => chargeThen vm GasCosts.MID fun vm =>
          orFail vm (decode_rrr vm) fun (dst, s1, s2) =>
            let divisor := regGet vm.registers s2
            if divisor = 0 then (vm, some (.vmErr .DivisionByZero))
            else
              ({ vm with registers := regSet vm.registers dst (regGet vm.registers s1 / divisor)
                         pc := vm.pc + 3 }, none)
      | .MOD => chargeThen vm GasCosts.MID fun vm =>
          orFail vm (decode_rrr vm) fun (dst, s1, s2) =>
            let divisor := regGet vm.registers s2
            if divisor = 0 then (vm, some (.vmErr .DivisionByZero))
            else
              ({ vm with registers := regSet vm.registers dst (regGet vm.registers s1 % divisor)
                         pc := vm.pc + 3 }, none)
      | .ADDI => chargeThen vm GasCosts.BASE fun vm =>
          orFail vm (decode_rr vm) fun (dst, src) =>
            orFail vm (decode_imm32 vm) fun immediate =>
              ({ vm with registers := regSet vm.registers dst
                           (wrap64 (regGet vm.registers src + immediate))
                         pc := vm.pc + 6 }, none)
      | .AND => chargeThen vm GasCosts.BASE fun vm =>
          orFail vm (decode_rrr vm) fun (dst, s1, s2) =>
            ({ vm with registers := regSet vm.registers dst
                         (Nat.land (regGet vm.registers s1) (regGet vm.registers s2))
                       pc := vm.pc + 3 }, none)
      | .OR => chargeThen vm GasCosts.BASE fun vm =>
          orFail vm (decode_rrr vm) fun (dst, s1, s2) =>
            ({ vm with registers := regSet vm.registers dst
                         (Nat.lor (regGet vm.registers s1) (regGet vm.registers s2))
                       pc := vm.pc + 3 }, none)
      | .XOR => chargeThen vm GasCosts.BASE fun vm =>
          orFail vm (decode_rrr vm) fun (dst, s1, s2) =>
            ({ vm with registers := regSet vm.registers dst
                         (Nat.xor (regGet vm.registers s1) (regGet vm.registers s2))
                       pc := vm.pc + 3 }, none)
      | .NOT => chargeThen vm GasCosts.BASE fun vm =>
          orFail vm (decode_r vm) fun dst =>
            ({ vm with registers := regSet vm.registers dst (not64 (regGet vm.registers dst))
                       pc := vm.pc + 2 }, none)
      | .SHL => chargeThen vm GasCosts.MID fun vm =>
          orFail vm (decode_rrr vm) fun (dst, s1, s2) =>
            let shift := regGet vm.registers s2 % 64
            ({ vm with registers := regSet vm.registers dst
                         (wrap64 (regGet vm.registers s1 <<< shift))
                       pc := vm.pc + 3 }, none)
      | .SHR => chargeThen vm GasCosts.MID fun vm =>
          orFail vm (decode_rrr vm) fun (dst, s1, s2) =>
            let shift := regGet vm.registers s2 % 64
            ({ vm with registers := regSet vm.registers dst (regGet vm.registers s1 >>> shift)
                       pc := vm.pc + 3 }, none)
      | .EQ => chargeThen vm GasCosts.BASE fun vm =>
          orFail vm (decode_rrr vm) fun (dst, s1, s2) =>
            ({ vm with registers := regSet vm.registers dst
                         (if regGet vm.registers s1 = regGet vm.registers s2 then 1 else 0)
                       pc := vm.pc + 3 }, none)
      | .NE => chargeThen vm GasCosts.BASE fun vm =>
          orFail vm (decode_rrr vm) fun (dst, s1, s2) =>
            ({ vm with registers := regSet vm.registers dst
                         (if regGet vm.registers s1 ≠ regGet vm.registers s2 then 1 else 0)
                       pc := vm.pc + 3 }, none)
      | .LT => chargeThen vm GasCosts.BASE fun vm =>
          orFail vm (decode_rrr vm) fun (dst, s1, s2) =>
            ({ vm with registers := regSet vm.registers dst
                         (if regGet vm.registers s1 < regGet vm.registers s2 then 1 else 0)
                       pc := vm.pc + 3 }, none)
      | .GT => chargeThen vm GasCosts.BASE fun vm =>
          orFail vm (decode_rrr vm) fun (dst, s1, s2) =>
            ({ vm with registers := regSet vm.registers dst
                         (if regGet vm.registers s2 < regGet vm.registers s1 then 1 else 0)
                       pc := vm.pc + 3 }, none)
      | .LE => chargeThen vm GasCosts.BASE fun vm =>
          orFail vm (decode_rrr vm) fun (dst, s1, s2) =>
            ({ vm with registers := regSet vm.registers dst
                         (if regGet vm.registers s1 ≤ regGet vm.registers s2 then 1 else 0)
                       pc := vm.pc + 3 }, none)
      | .GE => chargeThen vm GasCosts.BASE fun vm =>
          orFail vm (decode_rrr vm) fun (dst, s1, s2) =>
            ({ vm with registers := regSet vm.registers dst
                         (if regGet vm.registers s2 ≤ regGet vm.registers s1 then 1 else 0)
                       pc := vm.pc + 3 }, none)
      | .ISZERO => chargeThen vm GasCosts.BASE fun vm =>
          orFail vm (decode_r vm) fun dst =>
            ({ vm with registers := regSet vm.registers dst
                         (if regGet vm.registers dst = 0 then 1 else 0)
                       pc := vm.pc + 2 }, none)
      | .LOADI => chargeThen vm GasCosts.BASE fun vm =>
          orFail vm (decode_r vm) fun dst =>
            orFail vm (decode_imm64 vm) fun immediate =>
              ({ vm with registers := regSet vm.registers dst immediate
                         pc := vm.pc + 10 }, none)
      | .MOV => chargeThen vm GasCosts.BASE fun vm =>
          orFail vm (decode_rr vm) fun (dst, src) =>
            ({ vm with registers := regSet vm.registers dst (regGet vm.registers src)
                       pc := vm.pc + 2 }, none)
      | .JUMP => chargeThen vm GasCosts.JUMP fun vm =>
          orFail vm (decode_r vm) fun target =>
            let addr := regGet vm.registers target
            if addr ≥ vm.bytecode.length then (vm, some (.vmErr (.InvalidJump addr)))
            else ({ vm with pc := addr }, none)
      | .JUMPI => chargeThen vm GasCosts.JUMP fun vm =>
          orFail vm (decode_rr vm) fun (cond, target) =>
            if regGet vm.registers cond ≠ 0 then
              let addr := regGet vm.registers target
              if addr ≥ vm.bytecode.length then (vm, some (.vmErr (.InvalidJump addr)))
              else ({ vm with pc := addr }, none)
            else ({ vm with pc := vm.pc + 2 }, none)
      | .RET => chargeThen vm GasCosts.ZERO fun vm =>
          ({ vm with halted := true, pc := vm.pc + 1 }, none)
      | .REVERT => chargeThen vm GasCosts.ZERO fun vm =>
          ({ vm with halted := true, pc := vm.pc + 1 }, some (.vmErr .Reverted))
      | .CALL => chargeThen vm GasCosts.CALL fun vm =>
          ({ vm with pc := vm.pc + 1 }, none)
      | .LOG => chargeThen vm GasCosts.BASE fun vm =>
          orFail vm (decode_r vm) fun src =>
            ({ vm with logs := vm.logs ++ [regGet vm.registers src]
                       pc := vm.pc + 2 }, none)
      | .LOAD8 => chargeThen vm GasCosts.MEMORY_READ fun vm =>
          orFail vm (decode_rr vm) fun (dst, addr_reg) =>
            let addr := regGet vm.registers addr_reg % 2 ^ 32
            ({ vm with registers := regSet vm.registers dst (vm.memory.load8 addr)
                       pc := vm.pc + 2 }, none)
      | .LOAD64 => chargeThen vm GasCosts.MEMORY_READ fun vm =>
          orFail vm (decode_rr vm) fun (dst, addr_reg) =>
            let addr := regGet vm.registers addr_reg % 2 ^ 32
            ({ vm with registers := regSet vm.registers dst (vm.memory.load64 addr)
                       pc := vm.pc + 2 }, none)
      | .STORE8 => chargeThen vm GasCosts.MEMORY_WRITE fun vm =>
          orFail vm (decode_rr vm) fun (addr_reg, value_reg) =>
            let addr := regGet vm.registers addr_reg % 2 ^ 32
            let value := regGet vm.registers value_reg % 256
            match vm.memory.store8 addr value with
            | .error e => (vm, some (.vmErr e))
            | .ok m => ({ vm with memory := m, pc := vm.pc + 2 }, none)
      | .STORE64 => chargeThen vm GasCosts.MEMORY_WRITE fun vm =>
          orFail vm (decode_rr vm) fun (addr_reg, value_reg) =>
            let addr := regGet vm.registers addr_reg % 2 ^ 32
            let value := regGet vm.registers value_reg
            match vm.memory.store64 addr value with
            | .error e => (vm, some (.vmErr e))
            | .ok m => ({ vm with memory := m, pc := vm.pc + 2 }, none)
      | .MSIZE => chargeThen vm GasCosts.BASE fun vm =>
          orFail vm (decode_r vm) fun dst =>
            ({ vm with registers := regSet vm.registers dst vm.memory.size
                       pc := vm.pc + 2 }, none)
      | .MCOPY => chargeThen vm GasCosts.MEMORY_READ fun vm =>
          orFail vm (decode_rrr vm) fun (dst_reg, src_reg, len_reg) =>
            let dest := regGet vm.registers dst_reg % 2 ^ 32
            let src := regGet vm.registers src_reg % 2 ^ 32
            let length := regGet vm.registers len_reg % 2 ^ 32
            match vm.memory.mcopy dest src length with
            | .error e => (vm, some (.vmErr e))
            | .ok m => ({ vm with memory := m, pc := vm.pc + 3 }, none)
      | .SLOAD => chargeThen vm GasCosts.SLOAD fun vm =>
          orFail vm (decode_rr vm) fun (dst, key_reg) =>
            let key := regGet vm.registers key_reg
            let value :=
              match vm.storage with
              | some s => (alistLookup s key).getD 0
              | none => 0
            ({ vm with registers := regSet vm.registers dst value
                       pc := vm.pc + 2 }, none)
      | .SSTORE =>
          -- `execute_sstore_internal`: operands are decoded, and the slot
          -- inspected for the SET/RESET cost, before any gas is charged.
          orFail vm (decode_rr vm) fun (key_reg, value_reg) =>
            let key := regGet vm.registers key_reg
            let cost :=
              match vm.storage with
              | some s =>
                if (alistLookup s key).getD 0 = 0 then GasCosts.SSTORE_SET
                else GasCosts.SSTORE_RESET
              | none => GasCosts.SSTORE_SET
            chargeThen vm cost fun vm =>
              let value := regGet vm.registers value_reg
              ({ vm with storage := vm.storage.map (fun s => alistInsert s key value)
                         pc := vm.pc + 2 }, none)
      | .CALLER => chargeThen vm GasCosts.BASE fun vm =>
          orFail vm (decode_r vm) fun dst =>
            ({ vm with registers := regSet vm.registers dst vm.caller
                       pc := vm.pc + 2 }, none)
      | .CALLVALUE => chargeThen vm GasCosts.BASE fun vm =>
          orFail vm (decode_r vm) fun dst =>
            ({ vm with registers := regSet vm.registers dst vm.call_value
                       pc := vm.pc + 2 }, none)
      | .ADDRESS => chargeThen vm GasCosts.BASE fun vm =>
          orFail vm (decode_r vm) fun dst =>
            ({ vm with registers := regSet vm.registers dst vm.address
                       pc := vm.pc + 2 }, none)
      | .BLOCKNUMBER => chargeThen vm GasCosts.BASE fun vm =>
          orFail vm (decode_r vm) fun dst =>
            ({ vm with registers := regSet vm.registers dst vm.block_number
                       pc := vm.pc + 2 }, none)
      | .TIMESTAMP => chargeThen vm GasCosts.BASE fun vm =>
          orFail vm (decode_r vm) fun dst =>
            ({ vm with registers := regSet vm.registers dst vm.timestamp
                       pc := vm.pc + 2 }, none)
      | .GAS => chargeThen vm GasCosts.BASE fun vm =>
          orFail vm (decode_r vm) fun dst =>
            ({ vm with registers := regSet vm.registers dst vm.gas.remaining
                       pc := vm.pc + 2 }, none)

/-- `ExecutionResult`. -/
structure ExecutionResult where
  success : Bool
  gas_used : Nat
  return_data : List Nat
  logs : List Nat
deriving DecidableEq, Repr

/-- Outcome of `Vm::run`: a normal return, a propagated step error
(`Err(VmError)` or a decode panic), or fuel exhaustion of the embedding
(the Rust loop has no fuel; the claims hold for every fuel). -/
inductive RunOut where
  | done (r : ExecutionResult)
  | stopped (e : StepErr)
  | fuelOut
deriving DecidableEq, Repr

/-- `Vm::run`, with explicit fuel; also returns the final VM state so that
the gas meter can be observed on every exit path. -/
def Vm.runFuel : Nat → Vm → Vm × RunOut
  | 0, vm => (vm, .fuelOut)
  | fuel + 1, vm =>
    if vm.halted = false ∧ vm.pc < vm.bytecode.length then
      match vm.step with
      | (vm', none) => Vm.runFuel fuel vm'
      | (vm', some e) => (vm', .stopped e)
    else
      (vm, .done { success := vm.halted, gas_used := vm.gas.used,
                   return_data := [], logs := vm.logs })

/-- The bytes `Compiler::emit_instruction` pushes for `Instruction::AddI`
(crates/assembler/src/compiler.rs): opcode `0x15`, packed register byte,
then the 8 little-endian immediate bytes — 10 bytes, matching the
parser-declared `byte_size` of 10. -/
def emitAddI (dst src : Nat) (imm : Nat) : List Nat :=
  [0x15, (dst <<< 4) ||| src] ++ u64ToLeBytes imm

/-! ## Mempool ordering (crates/chain/src/mempool.rs)

`Mempool::get_by_gas_price` clones `self.transactions.values()` — the value
iteration sequence of a `HashMap`, an unspecified permutation of the inserted
transactions — and sorts it with the stable `Vec::sort_by` under the
comparator `b.gas_price.cmp(&a.gas_price)` (descending), then truncates.
The map iteration sequence is the explicit `values` input of the model; the
stable sort is modelled by stable insertion sort (insert after equals). -/

def insertByGasPriceDesc (t : Tx) : List Tx → List Tx
  | [] => [t]
  | x :: xs =>
    if x.gas_price > t.gas_price then x :: insertByGasPriceDesc t xs else t :: x :: xs

def sortByGasPriceDesc : List Tx → List Tx
  | [] => []
  | x :: xs => insertByGasPriceDesc x (sortByGasPriceDesc xs)

/-- `Mempool::get_by_gas_price(limit)` as a function of the map's value
iteration sequence. -/
def get_by_gas_price (values : List Tx) (limit : Nat) : List Tx :=
  (sortByGasPriceDesc values).take limit

/-- `Mempool::get_pending` aliases the gas-price view. -/
def get_pending (values : List Tx) (limit : Nat) : List Tx :=
  get_by_gas_price values limit

/-! ## PoA consensus (crates/consensus/src/poa.rs) -/

inductive ConsensusError where
  | UnauthorizedAuthority (a : Nat)
  | InvalidSignature
  | NotTurn (expected got : Nat)
  | TimestampTooFuture
  | TimestampTooEarly
  | NoAuthorities
deriving DecidableEq, Repr

structure PoAConfig where
  authorities : List Nat
  block_time : Nat
  max_clock_drift : Nat
deriving DecidableEq, Repr

/-- `PoAConfig::is_authority`. -/
def PoAConfig.is_authority (c : PoAConfig) (a : Nat) : Bool := c.authorities.contains a

/-- `PoAConfig::authority_at_height`: round-robin `height % authority_count`,
`NoAuthorities` on an empty set. -/
def PoAConfig.authority_at_height (c : PoAConfig) (height : Nat) : Except ConsensusError Nat :=
  if c.authorities.isEmpty then .error .NoAuthorities
  else .ok (c.authorities.getD (height % c.authorities.length) 0)

/-- The two header fields `Authority::verify_block_authority` reads. -/
structure BlockHeaderM where
  height : Nat
  author : Nat
deriving DecidableEq, Repr

/-- `Authority::verify_block_authority`. -/
def verify_block_authority (c : PoAConfig) (hdr : BlockHeaderM) : Except ConsensusError Unit :=
  if !c.is_authority hdr.author then .error (.UnauthorizedAuthority hdr.author)
  else
    match c.authority_at_height hdr.height with
    | .error e => .error e
    | .ok expected =>
      if expected ≠ hdr.author then .error (.NotTurn expected hdr.author)
      else .ok ()

/-! ## Merkle tree (crates/core/src/merkle.rs)

`hash_concat` on two 32-byte hashes is an opaque combine function
`hc : H → H → H`; `Inhabited.default` plays `Hash::ZERO`.  Every statement
below is proved for an arbitrary `hc`, hence holds for Blake3 in particular. -/

/-- One `chunks(2)` pass: pairwise combine, odd tail combined with itself. -/
def combineLevel {H : Type} (hc : H → H → H) : List H → List H
  | [] => []
  | [x] => [hc x x]
  | x :: y :: rest => hc x y :: combineLevel hc rest

/-- The `while levels.last().len() > 1` loop of `MerkleTree::new`, producing
all levels, leaves first. -/
def buildLevels {H : Type} (hc : H → H → H) (cur : List H) : List (List H) :=
  if cur.length ≤ 1 then [cur]
  else cur :: buildLevels hc (combineLevel hc cur)
termination_by cur.length
decreasing_by
  have key : ∀ (l : List H), (combineLevel hc l).length = (l.length + 1) / 2 := by
    intro l
    induction l using combineLevel.induct hc with
    | case1 => simp [combineLevel]
    | case2 _ => simp [combineLevel]
    | case3 a b rest ih => simp [combineLevel, ih]; omega
  simp [key]
  omega

structure MerkleTree (H : Type) where
  levels : List (List H)

/-- `MerkleProof`: the source keeps two parallel vectors `siblings` and
`directions`; `verify_proof` iterates their zip, so the model zips them. -/
structure MerkleProof (H : Type) where
  leaf : H
  path : List (H × Bool)

/-- `MerkleTree::new`. -/
def MerkleTree.new {H : Type} [Inhabited H] (hc : H → H → H) (leaves : List H) : MerkleTree H :=
  if leaves.isEmpty then { levels := [[default]] }
  else { levels := buildLevels hc leaves }

/-- `MerkleTree::root`: first entry of the last level. -/
def MerkleTree.root {H : Type} [Inhabited H] (t : MerkleTree H) : H :=
  (t.levels.getLastD []).headD default

/-- `MerkleTree::leaf_count`. -/
def MerkleTree.leaf_count {H : Type} (t : MerkleTree H) : Nat :=
  (t.levels.headD []).length

/-- The sibling/direction loop of `MerkleTree::proof` over `levels[..len-1]`
(every level except the root level). -/
def proofPath {H : Type} [Inhabited H] : List (List H) → Nat → List (H × Bool)
  | [], _ => []
  | [_], _ => []
  | level :: next :: rest, idx =>
    let sibIdx := if idx % 2 = 0 then idx + 1 else idx - 1
    let sib := if sibIdx < level.length then level.getD sibIdx default else level.getD idx default
    (sib, decide (idx % 2 = 0)) :: proofPath (next :: rest) (idx / 2)

/-- `MerkleTree::proof(index)`. -/
def MerkleTree.proofOf {H : Type} [Inhabited H] (t : MerkleTree H) (index : Nat) :
    Option (MerkleProof H) :=
  if index ≥ t.leaf_count then none
  else some { leaf := (t.levels.headD []).getD index default
              path := proofPath t.levels index }

/-- The recomputation loop of `verify_proof`: `true` direction means the
current node was the left child. -/
def proofFold {H : Type} (hc : H → H → H) (leaf : H) (path : List (H × Bool)) : H :=
  path.foldl (fun current sb => if sb.2 then hc current sb.1 else hc sb.1 current) leaf

/-- `verify_proof(root, proof)`. -/
def verify_proof {H : Type} [DecidableEq H] (hc : H → H → H) (root : H) (p : MerkleProof H) :
    Bool :=
  decide (proofFold hc p.leaf p.path = root)

/-! ## Dispatch gas bound used by the amended claim C9 -/

/-- The `gas_used` each dispatch shape can report: `32_000 + 200·len` for a
deploy, `21_000 + 68·len` for a call (a failed call reports `21_000`, which
is below this), `21_000` for a transfer. -/
def dispatchGasBound (tx : Tx) : Nat :=
  if tx.is_deploy then 32000 + 200 * tx.data.length
  else if tx.is_call then 21000 + 68 * tx.data.length
  else 21000

/-! ## Concrete instances used by the claim scenarios and witnesses -/

/-- A concrete hash model for closed evaluations; the digests are arbitrary
(claims hold for every `HashModel`). -/
def hm0 : HashModel :=
  { txHash := fun _ => 0, hashBytes := fun l => l.length + 100, contractAddrOf := fun _ _ => 7 }

/-- S3 setup: alice (address 1) with balance 100 000 and nonce 0. -/
def stC1 : ChainState :=
  { accounts := [(1, { nonce := 0, balance := 100000, code_hash := none, storage_root := 0 })]
    code := [] }

/-- S3 transaction: transfer 1 000 from alice (1) to bob (2), `gas_limit`
21 000, `gas_price` 1. -/
def txC1 : Tx :=
  { nonce := 0, from' := 1, to' := some 2, value := 1000, data := []
    gas_limit := 21000, gas_price := 1 }

/-- S4 setup: alice with balance 100. -/
def stC2 : ChainState :=
  { accounts := [(1, { nonce := 0, balance := 100, code_hash := none, storage_root := 0 })]
    code := [] }

/-- S4 transaction: transfer 1 000 with only 100 of balance. -/
def txC2 : Tx :=
  { nonce := 0, from' := 1, to' := some 2, value := 1000, data := []
    gas_limit := 21000, gas_price := 1 }

/-- C9 counterexample setup: sender with exactly 21 000 balance. -/
def stC9 : ChainState :=
  { accounts := [(1, { nonce := 0, balance := 21000, code_hash := none, storage_root := 0 })]
    code := [] }

/-- C9 counterexample: a deployment with one data byte and `gas_limit` 21 000;
it passes both pre-flight checks but `gas_used = 32 200 > 21 000 = max_cost`. -/
def txC9 : Tx :=
  { nonce := 0, from' := 1, to' := none, value := 0, data := [0]
    gas_limit := 21000, gas_price := 1 }

/-- C10 witness setup: a funded deployer. -/
def stC10 : ChainState :=
  { accounts := [(1, { nonce := 0, balance := 1000000, code_hash := none, storage_root := 0 })]
    code := [] }

/-- C10 witness: a successful deployment of three code bytes. -/
def txC10 : Tx :=
  { nonce := 0, from' := 1, to' := none, value := 5, data := [1, 2, 3]
    gas_limit := 100000, gas_price := 1 }

/-- The receipt produced by executing `txC10` from `stC10`. -/
def rC10 : Receipt :=
  { tx_hash := 0, success := true, gas_used := 32600, contract_address := some 7, error := none }

/-- The state after executing `txC10` from `stC10`. -/
def stC10' : ChainState :=
  { accounts := [(1, { nonce := 1, balance := 967400, code_hash := none, storage_root := 0 }),
                 (7, { nonce := 0, balance := 5, code_hash := some 103, storage_root := 0 })]
    code := [] }

/-- Two distinct transactions with equal `gas_price` for the C5 tie test. -/
def txTieA : Tx :=
  { nonce := 0, from' := 1, to' := some 9, value := 5, data := []
    gas_limit := 21000, gas_price := 7 }

def txTieB : Tx :=
  { nonce := 1, from' := 1, to' := some 9, value := 6, data := []
    gas_limit := 21000, gas_price := 7 }

/-! # Theorems -/

/-! ## Executor: code-keyspace frame lemmas -/

theorem put_account_code (st : ChainState) (a : Nat) (acct : Account) :
    (put_account st a acct).code = st.code := rfl

theorem add_balance_code (st : ChainState) (a amt : Nat) :
    (add_balance st a amt).code = st.code := rfl

theorem sub_balance_code {st : ChainState} {a amt : Nat} {st' : ChainState}
    (h : sub_balance st a amt = some st') : st'.code = st.code := by
  simp only [sub_balance] at h
  split at h
  · simp at h
  · simp only [Option.some.injEq] at h
    subst h
    rfl

theorem transfer_code {st : ChainState} {f t amt : Nat} {st' : ChainState}
    (h : transfer st f t amt = some st') : st'.code = st.code := by
  simp only [transfer] at h
  rcases hsb : sub_balance st f amt with _ | st1 <;> rw [hsb] at h
  · simp at h
  · simp only [Option.map_some', Option.some.injEq] at h
    subst h
    rw [add_balance_code]
    exact sub_balance_code hsb

theorem increment_nonce_code (st : ChainState) (a : Nat) :
    ((increment_nonce st a).2).code = st.code := rfl

theorem execute_transfer_code {st : ChainState} {tx : Tx} {out : DispatchOut}
    (h : execute_transfer st tx = .ok out) : out.2.2.2.2.code = st.code := by
  unfold execute_transfer at h
  split at h
  · simp at h
  · split at h
    · split at h
      · simp at h
      · rename_i st1 htr
        simp only [Except.ok.injEq] at h
        subst h
        exact transfer_code htr
    · simp only [Except.ok.injEq] at h
      subst h
      rfl

theorem execute_deploy_code {hm : HashModel} {st : ChainState} {tx : Tx} {out : DispatchOut}
    (h : execute_deploy hm st tx = .ok out) : out.2.2.2.2.code = st.code := by
  simp only [execute_deploy] at h
  split at h
  · simp at h
  · simp only [Except.ok.injEq] at h
    subst h
    rfl

theorem execute_call_code {st : ChainState} {tx : Tx} {out : DispatchOut}
    (h : execute_call st tx = .ok out) : out.2.2.2.2.code = st.code := by
  simp only [execute_call] at h
  split at h
  · simp at h
  · split at h
    · simp only [Except.ok.injEq] at h
      subst h
      rfl
    · split at h
      · split at h
        · simp at h
        · rename_i st1 htr
          simp only [Except.ok.injEq] at h
          subst h
          exact transfer_code htr
      · simp only [Except.ok.injEq] at h
        subst h
        rfl

theorem execute_transaction_code {hm : HashModel} {st : ChainState} {tx : Tx}
    {r : Receipt} {st' : ChainState}
    (h : execute_transaction hm st tx = .ok (r, st')) : st'.code = st.code := by
  simp only [execute_transaction] at h
  split at h
  · simp only [Except.ok.injEq, Prod.mk.injEq] at h
    exact h.2 ▸ rfl
  · split at h
    · simp only [Except.ok.injEq, Prod.mk.injEq] at h
      exact h.2 ▸ rfl
    · split at h
      · simp at h
      · split at h
        · simp at h
        · rename_i st2 hsb
          split at h
          · simp at h
          · rename_i success gas_used caddr err st3 hd
            split at h
            · simp at h
            · split at h
              · simp at h
              · simp only [Except.ok.injEq, Prod.mk.injEq] at h
                have hst3 : st3.code = st2.code := by
                  split at hd
                  · exact execute_deploy_code hd
                  · split at hd
                    · exact execute_call_code hd
                    · exact execute_transfer_code hd
                have hst2 : st2.code = st.code := by
                  rw [sub_balance_code hsb, increment_nonce_code]
                have hst4 : st'.code = st3.code := by
                  rcases h with ⟨-, h4⟩
                  subst h4
                  split
                  · rw [add_balance_code]
                  · rfl
                rw [hst4, hst3, hst2]

/-! ## Claim C1 -/

/-- Claim C1: executing a transfer of 1 000 from alice (address 1, balance
100 000, nonce 0) to bob (address 2) at `gas_price` 1 and `gas_limit` 21 000
yields a receipt `{success := true, gas_used := 21000}` and leaves
`balance(alice) = 78 000`, `balance(bob) = 1 000`, `nonce(alice) = 1`. -/
theorem C1_transfer_scenario :
    (execute_transaction hm0 stC1 txC1).map
      (fun p => (p.1.success, p.1.gas_used, get_balance p.2 1, get_balance p.2 2, get_nonce p.2 1))
      = .ok (true, 21000, 78000, 1000, 1) := by
  rfl

/-! ## Claim C2 -/

/-- Claim C2: a transaction failing a pre-flight check (nonce mismatch, or
balance below `max_cost`) produces a receipt with `success = false`,
`gas_used = 0` and an error naming the failure, and returns the state
completely unchanged. -/
theorem C2_preflight_failure_no_state_change (hm : HashModel) (st : ChainState) (tx : Tx)
    (h : tx.nonce ≠ (get_account st tx.from').nonce ∨
         (get_account st tx.from').balance < tx.max_cost) :
    ∃ e : RErr, execute_transaction hm st tx =
      .ok ({ tx_hash := hm.txHash tx, success := false, gas_used := 0,
             contract_address := none, error := some e }, st) := by
  unfold execute_transaction
  by_cases hn : tx.nonce = (get_account st tx.from').nonce
  · rcases h with h | h
    · exact absurd hn h
    · refine ⟨.insufficientBalance tx.max_cost (get_account st tx.from').balance, ?_⟩
      simp [hn, h]
  · exact ⟨.invalidNonce (get_account st tx.from').nonce tx.nonce, by simp [hn]⟩

/-- Witness for C2 at the S4 scenario (alice balance 100, transfer of 1 000). -/
theorem C2_preflight_failure_no_state_change_witness :
    (txC2.nonce ≠ (get_account stC2 txC2.from').nonce ∨
       (get_account stC2 txC2.from').balance < txC2.max_cost) ∧
    (∃ e : RErr, execute_transaction hm0 stC2 txC2 =
      .ok ({ tx_hash := hm0.txHash txC2, success := false, gas_used := 0,
             contract_address := none, error := some e }, stC2)) :=
  ⟨Or.inr (by decide),
   C2_preflight_failure_no_state_change hm0 stC2 txC2 (Or.inr (by decide))⟩

/-! ## Claim C9 -/

theorem dispatch_err_storage {hm : HashModel} {st : ChainState} {tx : Tx} {e : ExecErr}
    (h : (if tx.is_deploy then execute_deploy hm st tx
          else if tx.is_call then execute_call st tx
          else execute_transfer st tx) = .error e) : e = .storageErr := by
  split at h
  · rename_i hdep
    simp only [execute_deploy] at h
    split at h
    · rename_i hca
      simp [Tx.contract_address, hdep] at hca
    · simp at h
  · split at h
    · rename_i hndep hcall
      simp only [execute_call] at h
      split at h
      · rename_i hto
        simp [Tx.is_call, hto] at hcall
      · split at h
        · simp at h
        · split at h
          · split at h
            · simp only [Except.error.injEq] at h
              exact h.symm
            · simp at h
          · simp at h
    · rename_i hndep hncall
      simp only [execute_transfer] at h
      split at h
      · rename_i hto
        simp [Tx.is_deploy, hto] at hndep
      · split at h
        · split at h
          · simp only [Except.error.injEq] at h
            exact h.symm
          · simp at h
        · simp at h

theorem dispatch_ok_gas_le {hm : HashModel} {st : ChainState} {tx : Tx} {out : DispatchOut}
    (h : (if tx.is_deploy then execute_deploy hm st tx
          else if tx.is_call then execute_call st tx
          else execute_transfer st tx) = .ok out) :
    out.2.1 ≤ dispatchGasBound tx := by
  unfold dispatchGasBound
  split at h
  · rename_i hdep
    simp only [execute_deploy] at h
    split at h
    · simp at h
    · simp only [Except.ok.injEq] at h
      subst h
      simp [hdep]
      omega
  · split at h
    · rename_i hndep hcall
      simp only [execute_call] at h
      split at h
      · simp at h
      · split at h
        · simp only [Except.ok.injEq] at h
          subst h
          simp [hndep, hcall]
          try omega
        · split at h
          · split at h
            · simp at h
            · simp only [Except.ok.injEq] at h
              subst h
              simp [hndep, hcall]
              try omega
          · simp only [Except.ok.injEq] at h
            subst h
            simp [hndep, hcall]
            try omega
    · rename_i hndep hncall
      simp only [execute_transfer] at h
      split at h
      · simp at h
      · split at h
        · split at h
          · simp at h
          · simp only [Except.ok.injEq] at h
            subst h
            simp [hndep, hncall]
        · simp only [Except.ok.injEq] at h
          subst h
          simp [hndep, hncall]

theorem u64max_succ : U64MAX + 1 = U64LIMIT := by
  have h : 0 < U64LIMIT := by unfold U64LIMIT; positivity
  unfold U64MAX
  omega

/-- Claim C9 (amended): for a transaction whose `gas_limit` covers the
dispatched shape's `gas_used` (`32 000 + 200·len` for deploys,
`21 000 + 68·len` for calls, `21 000` for transfers) and whose `max_cost`
does not saturate u64, the prepaid maximum bounds the actual gas cost —
`gas_used · gas_price ≤ value + gas_limit · gas_price` — so
`execute_transaction` can never hit the refund-underflow (or gas-cost
overflow, or assertion) panic. -/
theorem C9_gas_charge_bounded (hm : HashModel) (st : ChainState) (tx : Tx)
    (hsat : tx.value + tx.gas_limit * tx.gas_price < U64LIMIT)
    (hgl : dispatchGasBound tx ≤ tx.gas_limit) :
    dispatchGasBound tx * tx.gas_price ≤ tx.max_cost ∧
    execute_transaction hm st tx ≠ .error .rustPanic := by
  have h64 := u64max_succ
  have hLp : tx.gas_limit * tx.gas_price ≤ U64MAX := by omega
  have hmc : tx.max_cost = tx.value + tx.gas_limit * tx.gas_price := by
    unfold Tx.max_cost satAdd satMul
    rw [Nat.min_eq_left hLp, Nat.min_eq_left (by omega)]
  have hbound : dispatchGasBound tx * tx.gas_price ≤ tx.max_cost := by
    rw [hmc]
    calc dispatchGasBound tx * tx.gas_price
        ≤ tx.gas_limit * tx.gas_price := Nat.mul_le_mul_right _ hgl
      _ ≤ tx.value + tx.gas_limit * tx.gas_price := Nat.le_add_left _ _
  refine ⟨hbound, ?_⟩
  intro hcontra
  simp only [execute_transaction] at hcontra
  split at hcontra
  · exact Except.noConfusion hcontra
  · split at hcontra
    · exact Except.noConfusion hcontra
    · split at hcontra
      · rename_i hn hbal hassert
        simp only [ne_eq, not_not] at hn
        exact hassert (by simpa [increment_nonce] using hn.symm)
      · split at hcontra
        · exact ExecErr.noConfusion (Except.error.inj hcontra)
        · rename_i st2 hsb
          split at hcontra
          · rename_i e hd
            simp only [Except.error.injEq] at hcontra
            have := dispatch_err_storage hd
            subst hcontra
            simp at this
          · rename_i success gas_used caddr err st3 hd
            have hgle := dispatch_ok_gas_le hd
            simp only at hgle
            split at hcontra
            · rename_i hov
              have h1 : gas_used * tx.gas_price ≤ dispatchGasBound tx * tx.gas_price :=
                Nat.mul_le_mul_right _ hgle
              omega
            · split at hcontra
              · rename_i hund
                have h1 : gas_used * tx.gas_price ≤ dispatchGasBound tx * tx.gas_price :=
                  Nat.mul_le_mul_right _ hgle
                omega
              · exact Except.noConfusion hcontra

/-- Witness for the amended C9 at a concrete successful deployment. -/
theorem C9_gas_charge_bounded_witness :
    (txC10.value + txC10.gas_limit * txC10.gas_price < U64LIMIT ∧
     dispatchGasBound txC10 ≤ txC10.gas_limit) ∧
    (dispatchGasBound txC10 * txC10.gas_price ≤ txC10.max_cost ∧
     execute_transaction hm0 stC10 txC10 ≠ .error .rustPanic) :=
  ⟨⟨by decide, by decide⟩,
   C9_gas_charge_bounded hm0 stC10 txC10 (by decide) (by decide)⟩

/-- Claim C9 counterexample: the deployment `txC9` (one data byte,
`gas_limit = 21 000`, `gas_price = 1`, sender balance exactly 21 000)
passes both pre-flight checks, yet its dispatch gas `32 200` exceeds
`max_cost = 21 000`, so the refund `max_cost - gas_used·gas_price`
underflows u64: the executor aborts instead of producing a receipt. -/
theorem C9_refund_underflow_cex :
    txC9.nonce = (get_account stC9 txC9.from').nonce ∧
    txC9.max_cost ≤ (get_account stC9 txC9.from').balance ∧
    txC9.gas_limit * txC9.gas_price < (32000 + txC9.data.length * 200) * txC9.gas_price ∧
    execute_transaction hm0 stC9 txC9 = .error .rustPanic := by
  refine ⟨rfl, by decide, by decide, rfl⟩

/-! ## Claim C10 -/

/-- Claim C10: a deployment writes only the contract's account entry
(`balance = value`, `nonce = 0`, `code_hash = Some(hash(data))`); the
bytecode is never persisted — the `code:` keyspace is untouched, so on a
fresh store `get_code` still finds nothing after a successful deploy. -/
theorem C10_deploy_persists_no_code (hm : HashModel) (st : ChainState) (tx : Tx)
    (r : Receipt) (st' : ChainState) (hdep : tx.to' = none)
    (h : execute_transaction hm st tx = .ok (r, st')) :
    st'.code = st.code ∧
    (st.code = [] → get_code st' (hm.hashBytes tx.data) = none) ∧
    (∀ out : DispatchOut, execute_deploy hm st tx = .ok out →
        out.2.2.2.2 = put_account st (hm.contractAddrOf tx.from' tx.nonce)
          { nonce := 0, balance := tx.value, code_hash := some (hm.hashBytes tx.data),
            storage_root := 0 }) := by
  have hc := execute_transaction_code h
  refine ⟨hc, ?_, ?_⟩
  · intro he
    simp [get_code, hc, he, alistLookup]
  · intro out hout
    simp only [execute_deploy] at hout
    split at hout
    · rename_i hca
      simp [Tx.contract_address, Tx.is_deploy, hdep] at hca
    · rename_i caddr hca
      simp only [Except.ok.injEq] at hout
      subst hout
      simp only [Tx.contract_address, Tx.is_deploy, hdep, Option.isNone_none, if_pos,
        Option.some.injEq] at hca
      subst hca
      rfl

/-- Witness for C10 at the concrete deployment `txC10`. -/
theorem C10_deploy_persists_no_code_witness :
    (txC10.to' = none ∧ execute_transaction hm0 stC10 txC10 = .ok (rC10, stC10')) ∧
    (stC10'.code = stC10.code ∧
     (stC10.code = [] → get_code stC10' (hm0.hashBytes txC10.data) = none) ∧
     (∀ out : DispatchOut, execute_deploy hm0 stC10 txC10 = .ok out →
        out.2.2.2.2 = put_account stC10 (hm0.contractAddrOf txC10.from' txC10.nonce)
          { nonce := 0, balance := txC10.value, code_hash := some (hm0.hashBytes txC10.data),
            storage_root := 0 })) :=
  ⟨⟨rfl, rfl⟩, C10_deploy_persists_no_code hm0 stC10 txC10 rC10 stC10' rfl rfl⟩

/-! ## Claim C3 -/

theorem consume_sum {g : GasMeter} {a : Nat} {g' : GasMeter}
    (h : g.consume a = .ok g') : g'.used + g'.remaining = g.used + g.remaining := by
  unfold GasMeter.consume at h
  split at h
  · simp at h
  · rename_i hle
    simp only [Except.ok.injEq] at h
    subst h
    simp only []
    omega

theorem orFail_gas {α : Type} (vmX : Vm) (x : Except StepErr α) (k : α → Vm × Option StepErr)
    (hk : ∀ a, (k a).1.gas = vmX.gas) : (orFail vmX x k).1.gas = vmX.gas := by
  cases x <;> simp [orFail, hk]

theorem chargeThen_gas_sum (vm : Vm) (cost : Nat) (k : Vm → Vm × Option StepErr)
    (hk : ∀ vm', (k vm').1.gas = vm'.gas) :
    (chargeThen vm cost k).1.gas.used + (chargeThen vm cost k).1.gas.remaining
      = vm.gas.used + vm.gas.remaining := by
  unfold chargeThen
  rcases hc : vm.gas.consume cost with e | g
  · rfl
  · simp only [hk]
    exact consume_sum hc

theorem step_gas_sum (vm : Vm) :
    (vm.step).1.gas.used + (vm.step).1.gas.remaining = vm.gas.used + vm.gas.remaining := by
  unfold Vm.step
  rcases h1 : vm.bytecode[vm.pc]? with _ | b
  · rfl
  · dsimp only
    rcases h2 : Opcode.from_byte b with _ | op
    · rfl
    · dsimp only
      cases op
      case SSTORE =>
        rcases hkv : decode_rr vm with e | kv
        · simp [orFail, hkv]
        · simp only [orFail, hkv]
          rcases kv with ⟨kr, vr⟩
          apply chargeThen_gas_sum
          intro vm'
          rfl
      all_goals
        apply chargeThen_gas_sum
        intro vm'
        first
          | rfl
          | (apply orFail_gas
             intro a
             first
               | rfl
               | (split <;> (try split) <;> rfl)
               | (apply orFail_gas
                  intro a2
                  rfl))

theorem runFuel_gas_sum (fuel : Nat) (vm : Vm) :
    (Vm.runFuel fuel vm).1.gas.used + (Vm.runFuel fuel vm).1.gas.remaining
      = vm.gas.used + vm.gas.remaining := by
  induction fuel generalizing vm with
  | zero => rfl
  | succ n ih =>
    unfold Vm.runFuel
    split
    · rcases hs : vm.step with ⟨vm', e⟩
      have hsum : vm'.gas.used + vm'.gas.remaining = vm.gas.used + vm.gas.remaining := by
        have := step_gas_sum vm
        rw [hs] at this
        exact this
      cases e with
      | none => simp only []; rw [ih vm']; exact hsum
      | some e => simp only []; exact hsum
    · rfl

/-- Claim C3: for every bytecode program, gas limit, execution context and
fuel bound, the gas meter of the VM state in which `Vm::run` stops — whether
it halted, errored, or the fuel ran out mid-loop — satisfies
`gas_used + gas_remaining = initial gas limit`: the conservation equation is
an invariant preserved by every `GasMeter::consume` step of the dispatch. -/
theorem C3_gas_conservation (bytecode : List Nat)
    (gas_limit caller addr call_value fuel : Nat) :
    ((Vm.new bytecode gas_limit caller addr call_value).runFuel fuel).1.gas.used
      + ((Vm.new bytecode gas_limit caller addr call_value).runFuel fuel).1.gas.remaining
      = gas_limit := by
  have h := runFuel_gas_sum fuel (Vm.new bytecode gas_limit caller addr call_value)
  simpa [Vm.new, GasMeter.new] using h

/-! ## Claim C4 -/

/-- Claim C4 (code bug): the assembler emits a 10-byte ADDI — opcode, packed
register byte, 8-byte little-endian immediate — but the VM's ADDI arm decodes
only a 32-bit immediate and advances the PC by 6.  On the assembled
`ADDI R0, R0, 2^32` (immediate bytes `00 00 00 00 01 00 00 00`) followed by
`HALT`, one step leaves `R0 = 0` (the low 4 immediate bytes) instead of
`2^32`, and `pc = 6` (inside the immediate) instead of 10; the declared
`Opcode::instruction_size` for ADDI even falls through the wildcard to 2. -/
theorem C4_addi_encoding_mismatch :
    (emitAddI 0 0 (2 ^ 32)).length = 10 ∧
    Opcode.instruction_size .ADDI = 2 ∧
    (Vm.step (Vm.new (emitAddI 0 0 (2 ^ 32) ++ [0x00]) 1000000 0 0 0)).1.pc = 6 ∧
    regGet (Vm.step (Vm.new (emitAddI 0 0 (2 ^ 32) ++ [0x00]) 1000000 0 0 0)).1.registers 0 = 0 ∧
    (2 ^ 32 : Nat) ≠ 0 :=
  ⟨rfl, rfl, rfl, rfl, by decide⟩

/-! ## Claim C8 -/

/-- Claim C8 (code bug): on the one-byte program `[0x71]` — a valid MOV
opcode whose operand byte is missing — `Vm::step` evaluates
`self.bytecode[self.pc + 1]` with index 1 against length 1, a Rust
index-out-of-bounds panic: `Vm::run` returns neither `Ok` nor `Err`. -/
theorem C8_truncated_operand_reads_oob :
    Opcode.from_byte 0x71 = some .MOV ∧
    ([0x71] : List Nat).length = 1 ∧
    (Vm.runFuel 5 (Vm.new [0x71] 10 0 0 0)).2 = .stopped (.oobIndex 1) :=
  ⟨rfl, rfl, rfl⟩

/-! ## Claim C5 -/

theorem mem_insertByGasPriceDesc {b t : Tx} {l : List Tx} :
    b ∈ insertByGasPriceDesc t l ↔ b = t ∨ b ∈ l := by
  induction l with
  | nil => simp [insertByGasPriceDesc]
  | cons x xs ih =>
    unfold insertByGasPriceDesc
    split
    · simp only [List.mem_cons, ih]
      tauto
    · simp
      try tauto

theorem insertByGasPriceDesc_sorted {t : Tx} {l : List Tx}
    (h : l.Pairwise (fun a b => b.gas_price ≤ a.gas_price)) :
    (insertByGasPriceDesc t l).Pairwise (fun a b => b.gas_price ≤ a.gas_price) := by
  induction l with
  | nil => simp [insertByGasPriceDesc]
  | cons x xs ih =>
    rw [List.pairwise_cons] at h
    obtain ⟨hx, hxs⟩ := h
    unfold insertByGasPriceDesc
    split
    · rename_i hgt
      rw [List.pairwise_cons]
      refine ⟨?_, ih hxs⟩
      intro b hb
      rcases mem_insertByGasPriceDesc.mp hb with hb | hb
      · subst hb; omega
      · exact hx b hb
    · rename_i hle
      rw [List.pairwise_cons]
      refine ⟨?_, List.pairwise_cons.mpr ⟨hx, hxs⟩⟩
      intro b hb
      rcases List.mem_cons.mp hb with hb | hb
      · subst hb; omega
      · have := hx b hb; omega

theorem sortByGasPriceDesc_sorted (l : List Tx) :
    (sortByGasPriceDesc l).Pairwise (fun a b => b.gas_price ≤ a.gas_price) := by
  induction l with
  | nil => simp [sortByGasPriceDesc]
  | cons x xs ih => exact insertByGasPriceDesc_sorted ih

theorem insertByGasPriceDesc_perm (t : Tx) (l : List Tx) :
    (insertByGasPriceDesc t l).Perm (t :: l) := by
  induction l with
  | nil => simp [insertByGasPriceDesc]
  | cons x xs ih =>
    unfold insertByGasPriceDesc
    split
    · exact (List.Perm.cons x ih).trans (List.Perm.swap t x xs)
    · exact List.Perm.refl _

theorem sortByGasPriceDesc_perm (l : List Tx) : (sortByGasPriceDesc l).Perm l := by
  induction l with
  | nil => exact List.Perm.refl _
  | cons x xs ih =>
    exact (insertByGasPriceDesc_perm x _).trans (List.Perm.cons x ih)

/-- Claim C5 (amended): `get_by_gas_price` sorts the `HashMap`'s value
iteration sequence stably by descending `gas_price` and truncates: the
output is sorted descending, and the full sort is a permutation of the
iterated values — but the tie order is the map's unspecified iteration
order, not insertion order. -/
theorem C5_sorted_desc_by_gas_price (values : List Tx) (limit : Nat) :
    ((get_by_gas_price values limit).Pairwise (fun a b => b.gas_price ≤ a.gas_price)) ∧
    (sortByGasPriceDesc values).Perm values ∧
    get_pending values limit = get_by_gas_price values limit := by
  refine ⟨?_, sortByGasPriceDesc_perm values, rfl⟩
  exact (sortByGasPriceDesc_sorted values).sublist (List.take_sublist _ _)

/-- Claim C5 counterexample: `txTieA` and `txTieB` are distinct transactions
with equal `gas_price`, inserted in the order `[txTieA, txTieB]`.  Under the
map iteration order `[txTieB, txTieA]` — a permutation of the insertions a
`HashMap` may well produce — `get_by_gas_price` returns `[txTieB, txTieA]`:
the tie does not appear in insertion order. -/
theorem C5_ties_not_insertion_order_cex :
    txTieA ≠ txTieB ∧
    txTieA.gas_price = txTieB.gas_price ∧
    List.Perm [txTieB, txTieA] [txTieA, txTieB] ∧
    get_by_gas_price [txTieB, txTieA] 10 = [txTieB, txTieA] ∧
    [txTieB, txTieA] ≠ [txTieA, txTieB] :=
  ⟨by decide, rfl, List.Perm.swap txTieA txTieB [], rfl, by decide⟩

/-! ## Claim C6 -/

theorem authority_at_height_nonempty {c : PoAConfig} (hne : c.authorities ≠ []) (h : Nat) :
    c.authority_at_height h = .ok (c.authorities.getD (h % c.authorities.length) 0) := by
  unfold PoAConfig.authority_at_height
  rw [if_neg (by simpa [List.isEmpty_iff] using hne)]

/-- Claim C6: with a non-empty authority list of length `N`,
`verify_block_authority` accepts a block exactly when its author is
`authorities[height % N]`; any other author is rejected with
`UnauthorizedAuthority` or `NotTurn`.  With an empty list the scheduler
`authority_at_height` fails with `NoAuthorities`. -/
theorem C6_round_robin_scheduler (c : PoAConfig) (hdr : BlockHeaderM)
    (hne : c.authorities ≠ []) :
    (verify_block_authority c hdr = .ok () ↔
       hdr.author = c.authorities.getD (hdr.height % c.authorities.length) 0) ∧
    (verify_block_authority c hdr = .ok () ∨
       verify_block_authority c hdr = .error (.UnauthorizedAuthority hdr.author) ∨
       verify_block_authority c hdr =
         .error (.NotTurn (c.authorities.getD (hdr.height % c.authorities.length) 0) hdr.author)) ∧
    (∀ c' : PoAConfig, c'.authorities = [] →
       c'.authority_at_height hdr.height = .error .NoAuthorities) := by
  have hlen : 0 < c.authorities.length := List.length_pos.mpr hne
  have hmod : hdr.height % c.authorities.length < c.authorities.length :=
    Nat.mod_lt _ hlen
  have hmem : c.authorities.getD (hdr.height % c.authorities.length) 0 ∈ c.authorities := by
    rw [List.getD_eq_getElem _ _ hmod]
    exact List.getElem_mem _
  refine ⟨⟨?_, ?_⟩, ?_, ?_⟩
  · intro h
    unfold verify_block_authority at h
    split at h
    · simp at h
    · rw [authority_at_height_nonempty hne] at h
      dsimp only at h
      split at h
      · simp at h
      · rename_i hne2
        exact (not_not.mp hne2).symm
  · intro h
    unfold verify_block_authority
    rw [if_neg, authority_at_height_nonempty hne]
    · dsimp only
      rw [if_neg (by simp [h])]
    · simp only [Bool.not_eq_true', Bool.not_eq_false]
      unfold PoAConfig.is_authority
      rw [h]
      exact List.elem_eq_true_of_mem hmem
  · unfold verify_block_authority
    split
    · right; left; rfl
    · rw [authority_at_height_nonempty hne]
      dsimp only
      split
      · right; right; rfl
      · left; rfl
  · intro c' hc'
    unfold PoAConfig.authority_at_height
    rw [if_pos (by simp [hc'])]

/-- Witness for C6: authorities `[10, 20]`, a block at height 1 authored
by 20. -/
theorem C6_round_robin_scheduler_witness :
    (([10, 20] : List Nat) ≠ []) ∧
    ((verify_block_authority ⟨[10, 20], 5, 30⟩ ⟨1, 20⟩ = .ok () ↔
       (20 : Nat) = ([10, 20] : List Nat).getD (1 % ([10, 20] : List Nat).length) 0) ∧
     (verify_block_authority ⟨[10, 20], 5, 30⟩ ⟨1, 20⟩ = .ok () ∨
       verify_block_authority ⟨[10, 20], 5, 30⟩ ⟨1, 20⟩ = .error (.UnauthorizedAuthority 20) ∨
       verify_block_authority ⟨[10, 20], 5, 30⟩ ⟨1, 20⟩ =
         .error (.NotTurn (([10, 20] : List Nat).getD (1 % ([10, 20] : List Nat).length) 0) 20)) ∧
     (∀ c' : PoAConfig, c'.authorities = [] →
       c'.authority_at_height 1 = .error .NoAuthorities)) :=
  ⟨by decide, C6_round_robin_scheduler ⟨[10, 20], 5, 30⟩ ⟨1, 20⟩ (by decide)⟩

/-! ## Claim C7 -/

theorem combineLevel_length {H : Type} (hc : H → H → H) (l : List H) :
    (combineLevel hc l).length = (l.length + 1) / 2 := by
  induction l using combineLevel.induct hc with
  | case1 => simp [combineLevel]
  | case2 _ => simp [combineLevel]
  | case3 a b rest ih => simp [combineLevel, ih]; omega

theorem buildLevels_eq {H : Type} (hc : H → H → H) (cur : List H) :
    buildLevels hc cur =
      if cur.length ≤ 1 then [cur] else cur :: buildLevels hc (combineLevel hc cur) := by
  rw [buildLevels]

theorem buildLevels_ne_nil {H : Type} (hc : H → H → H) (cur : List H) :
    buildLevels hc cur ≠ [] := by
  rw [buildLevels_eq]
  split <;> simp

theorem buildLevels_head {H : Type} (hc : H → H → H) (cur : List H) :
    (buildLevels hc cur).headD [] = cur := by
  rw [buildLevels_eq]
  split <;> rfl

theorem getLastD_ne_nil {α : Type} : ∀ {l : List α}, l ≠ [] → ∀ d1 d2 : α,
    l.getLastD d1 = l.getLastD d2
  | [], h, _, _ => absurd rfl h
  | [_], _, _, _ => rfl
  | _ :: y :: rest, _, d1, d2 => getLastD_ne_nil (l := y :: rest) (by simp) d1 d2

theorem combineLevel_getD {H : Type} [Inhabited H] (hc : H → H → H) :
    ∀ (l : List H) (idx : Nat), idx < l.length →
    (combineLevel hc l).getD (idx / 2) default =
      (if idx % 2 = 0 then
        (if idx + 1 < l.length then hc (l.getD idx default) (l.getD (idx + 1) default)
         else hc (l.getD idx default) (l.getD idx default))
       else hc (l.getD (idx - 1) default) (l.getD idx default)) := by
  intro l
  induction l using combineLevel.induct hc with
  | case1 =>
    intro idx h
    simp at h
  | case2 a =>
    intro idx h
    simp only [List.length_singleton] at h
    have : idx = 0 := by omega
    subst this
    rfl
  | case3 a b rest ih =>
    intro idx h
    match idx with
    | 0 =>
      rw [if_pos (show (0 : Nat) % 2 = 0 by omega),
        if_pos (show 0 + 1 < (a :: b :: rest).length by simp only [List.length_cons]; omega)]
      rfl
    | 1 =>
      rw [if_neg (show ¬ (1 : Nat) % 2 = 0 by omega)]
      rfl
    | (n + 2) =>
      have hn : n < rest.length := by
        simp only [List.length_cons] at h
        omega
      have hLHS : (combineLevel hc (a :: b :: rest)).getD ((n + 2) / 2) default
          = (combineLevel hc rest).getD (n / 2) default := by
        have hdiv : (n + 2) / 2 = n / 2 + 1 := by omega
        rw [hdiv]
        rfl
      rw [hLHS, ih n hn]
      by_cases hpar : n % 2 = 0
      · rw [if_pos hpar, if_pos (show (n + 2) % 2 = 0 by omega)]
        by_cases hlt : n + 1 < rest.length
        · rw [if_pos hlt, if_pos (show n + 2 + 1 < (a :: b :: rest).length by
            simp only [List.length_cons]; omega)]
          rfl
        · rw [if_neg hlt, if_neg (show ¬ n + 2 + 1 < (a :: b :: rest).length by
            simp only [List.length_cons]; omega)]
          rfl
      · rw [if_neg hpar, if_neg (show ¬ (n + 2) % 2 = 0 by omega)]
        obtain ⟨m, rfl⟩ : ∃ m, n = m + 1 := ⟨n - 1, by omega⟩
        rfl

theorem proofPath_cons {H : Type} [Inhabited H] (level next : List H) (rest : List (List H))
    (idx : Nat) :
    proofPath (level :: next :: rest) idx =
      ((if (if idx % 2 = 0 then idx + 1 else idx - 1) < level.length
          then level.getD (if idx % 2 = 0 then idx + 1 else idx - 1) default
          else level.getD idx default),
       decide (idx % 2 = 0)) :: proofPath (next :: rest) (idx / 2) := rfl

theorem proofFold_cons {H : Type} (hc : H → H → H) (leaf s : H) (dir : Bool)
    (path : List (H × Bool)) :
    proofFold hc leaf ((s, dir) :: path)
      = proofFold hc (if dir then hc leaf s else hc s leaf) path := rfl

theorem step_parent {H : Type} [Inhabited H] (hc : H → H → H) (cur : List H) (idx : Nat)
    (h : idx < cur.length) :
    (if decide (idx % 2 = 0)
       then hc (cur.getD idx default)
              (if (if idx % 2 = 0 then idx + 1 else idx - 1) < cur.length
                 then cur.getD (if idx % 2 = 0 then idx + 1 else idx - 1) default
                 else cur.getD idx default)
       else hc (if (if idx % 2 = 0 then idx + 1 else idx - 1) < cur.length
                 then cur.getD (if idx % 2 = 0 then idx + 1 else idx - 1) default
                 else cur.getD idx default)
              (cur.getD idx default))
      = (combineLevel hc cur).getD (idx / 2) default := by
  rw [combineLevel_getD hc cur idx h]
  by_cases hpar : idx % 2 = 0
  · by_cases hlt : idx + 1 < cur.length
    · simp [hpar, hlt]
    · simp [hpar, hlt]
  · have hsib : idx - 1 < cur.length := by omega
    simp [hpar, hsib]

theorem proofPath_buildLevels_fold {H : Type} [Inhabited H] (hc : H → H → H) (cur : List H)
    (idx : Nat) (h : idx < cur.length) :
    proofFold hc (cur.getD idx default) (proofPath (buildLevels hc cur) idx)
      = ((buildLevels hc cur).getLastD []).headD default := by
  induction cur using buildLevels.induct hc generalizing idx with
  | case1 cur h1 =>
    rw [buildLevels_eq, if_pos h1]
    rcases cur with _ | ⟨x, xs⟩
    · simp at h
    · rcases xs with _ | ⟨y, ys⟩
      · have : idx = 0 := by
          simp only [List.length_singleton] at h
          omega
        subst this
        rfl
      · simp only [List.length_cons] at h1
        omega
  | case2 cur h1 ih =>
    rw [buildLevels_eq, if_neg h1]
    rcases hblv : buildLevels hc (combineLevel hc cur) with _ | ⟨next, rest⟩
    · exact absurd hblv (buildLevels_ne_nil hc _)
    · rw [proofPath_cons, proofFold_cons]
      rw [step_parent hc cur idx h]
      have hidx2 : idx / 2 < (combineLevel hc cur).length := by
        rw [combineLevel_length]
        omega
      have hih := ih (idx / 2) hidx2
      rw [hblv] at hih
      rw [hih]
      have hcons : ((cur :: next :: rest).getLastD []) = ((next :: rest).getLastD []) := by
        have h2 : (cur :: next :: rest).getLastD [] = (next :: rest).getLastD cur := rfl
        rw [h2]
        exact getLastD_ne_nil (by simp) cur []
      rw [hcons]

/-- Claim C7: for every non-empty list of leaf hashes (odd lengths included)
and every index `i < leaves.len()`, `MerkleTree::proof(i)` produces a proof,
and `verify_proof` accepts it against the tree's root — for an arbitrary
combine function `hc`, hence in particular for `hash_concat`. -/
theorem C7_merkle_proof_verifies {H : Type} [Inhabited H] [DecidableEq H]
    (hc : H → H → H) (leaves : List H) (i : Nat)
    (hne : leaves ≠ []) (hi : i < leaves.length) :
    ∃ p : MerkleProof H, (MerkleTree.new hc leaves).proofOf i = some p ∧
      verify_proof hc (MerkleTree.new hc leaves).root p = true := by
  have hlev : (MerkleTree.new hc leaves).levels = buildLevels hc leaves := by
    unfold MerkleTree.new
    rw [if_neg (by simpa [List.isEmpty_iff] using hne)]
  have hcount : (MerkleTree.new hc leaves).leaf_count = leaves.length := by
    unfold MerkleTree.leaf_count
    rw [hlev, buildLevels_head]
  refine ⟨{ leaf := ((MerkleTree.new hc leaves).levels.headD []).getD i default,
            path := proofPath (MerkleTree.new hc leaves).levels i }, ?_, ?_⟩
  · unfold MerkleTree.proofOf
    rw [if_neg (by omega)]
  · unfold verify_proof MerkleTree.root
    rw [decide_eq_true_iff]
    rw [hlev, buildLevels_head]
    exact proofPath_buildLevels_fold hc leaves i hi

/-- Witness for C7 on three leaves (odd length) at index 2, with an
arbitrary concrete combine function. -/
theorem C7_merkle_proof_verifies_witness :
    (([5, 6, 7] : List Nat) ≠ [] ∧ 2 < ([5, 6, 7] : List Nat).length) ∧
    (∃ p : MerkleProof Nat,
      (MerkleTree.new (fun a b => 2 * a + 3 * b) [5, 6, 7]).proofOf 2 = some p ∧
      verify_proof (fun a b => 2 * a + 3 * b)
        (MerkleTree.new (fun a b => 2 * a + 3 * b) [5, 6, 7]).root p = true) :=
  ⟨⟨by decide, by decide⟩,
   C7_merkle_proof_verifies (fun a b => 2 * a + 3 * b) [5, 6, 7] 2 (by decide) (by decide)⟩

end Minichain
